import Mathlib

/-!
# Shallow embedding of the CHSH inequality module

This file embeds `src/braket/experimental/algorithms/chsh_inequality/chsh_inequality.py`.

Circuits are modelled as lists of gate instructions, recording exactly the
builder calls the source makes (`h`, `cnot`, `ry`, `probability`).  The
numeric type of angles and probabilities is a parameter `α`: the concrete
evaluations instantiate it at `ℚ` (where everything is computable), and the
exact-simulation statements instantiate it at `ℝ`.
-/

namespace CHSH

variable {α : Type} [LinearOrderedField α] {τ : Type}

/-- A gate instruction, as recorded by the Braket circuit-builder calls used in
the source module: `h`, `cnot`, `ry`, and the `probability` result-type
declaration (kept in the instruction list in source order). -/
inductive Gate (α : Type) where
  | h (q : ℕ)
  | cnot (q0 q1 : ℕ)
  | ry (q : ℕ) (angle : α)
  | probability
deriving DecidableEq

/-- Embedding of `bell_singlet(qubit0, qubit1)`: `Circuit().h(qubit0).cnot(qubit0, qubit1)`. -/
def bell_singlet (qubit0 qubit1 : ℕ) : List (Gate α) :=
  [Gate.h qubit0, Gate.cnot qubit0 qubit1]

/-- Embedding of `bell_singlet_rotated_basis(qubit0, qubit1, rotation0, rotation1)`:
builds `bell_singlet`, then applies `ry(qubit0, rotation0)` when
`rotation0 != 0`, then declares `probability()`.  The source reads but never
uses `rotation1`; the embedding keeps the parameter to mirror the signature. -/
def bell_singlet_rotated_basis (qubit0 qubit1 : ℕ) (rotation0 rotation1 : α) :
    List (Gate α) :=
  bell_singlet qubit0 qubit1
    ++ (if rotation0 ≠ 0 then [Gate.ry qubit0 rotation0] else [])
    ++ [Gate.probability]

/-- Embedding of `create_chsh_inequality_circuits(qubit0, qubit1, a, a_, b, b_)`: the four
circuits `circ_ab`, `circ_ab_` (with `h(qubit1)` appended), `circ_a_b` (with
`h(qubit0)` appended) and `circ_a_b_` (with `h(qubit0)` and `h(qubit1)`
appended).  The source defaults are `qubit0 = 0`, `qubit1 = 1`, `a = 0`,
`a_ = 2π/8`, `b = π/8`, `b_ = 3π/8`. -/
def create_chsh_inequality_circuits (qubit0 qubit1 : ℕ) (a a_ b b_ : α) :
    List (List (Gate α)) :=
  [bell_singlet_rotated_basis qubit0 qubit1 a b,
   bell_singlet_rotated_basis qubit0 qubit1 a b_ ++ [Gate.h qubit1],
   bell_singlet_rotated_basis qubit0 qubit1 a_ b ++ [Gate.h qubit0],
   bell_singlet_rotated_basis qubit0 qubit1 a_ b_ ++ [Gate.h qubit0, Gate.h qubit1]]

/-- An outcome distribution over the four two-qubit outcomes, in the index
order `00, 01, 10, 11` used by `d[0] .. d[3]` in the source. -/
structure Distribution (α : Type) where
  p00 : α
  p01 : α
  p10 : α
  p11 : α
deriving DecidableEq

/-- A completed quantum task, modelled by the outcome distribution that the
external extraction `task.result().result_types[0].value` yields. -/
structure QuantumTask (α : Type) where
  resultDist : Distribution α
deriving DecidableEq

/-- Per-distribution `prob_same` term of the source: `d[0] + d[3]`
(the `00` and `11` states). -/
def prob_same (d : Distribution α) : α := d.p00 + d.p11

/-- Per-distribution `prob_different` term of the source: `d[1] + d[2]`
(the `01` and `10` states). -/
def prob_different (d : Distribution α) : α := d.p01 + d.p10

/-- The per-distribution expectation value the source computes elementwise:
`prob_same - prob_different`. -/
def expectationValue (d : Distribution α) : α := prob_same d - prob_different d

/-- The tuple returned by `get_chsh_results`, in the source return order:
`chsh_value, results, E_ab, E_ab_, E_a_b, E_a_b_`. -/
structure ChshResult (α : Type) where
  chsh_value : α
  results : List (Distribution α)
  E_ab : α
  E_ab_ : α
  E_a_b : α
  E_a_b_ : α
deriving DecidableEq

/-- Embedding of `get_chsh_results(tasks, verbose)`: extracts the distribution of each task,
forms the elementwise `prob_same` and `prob_different` arrays, unpacks their
difference into the four expectation values (the Python tuple unpacking
raises unless there are exactly four, modelled by `Option`), and combines
them as `E_ab - E_ab_ + E_a_b + E_a_b_`.  The `verbose` flag only controls
printing and does not affect the returned value. -/
def get_chsh_results (tasks : List (QuantumTask α)) (verbose : Bool) :
    Option (ChshResult α) :=
  let results := tasks.map QuantumTask.resultDist
  match List.zipWith (fun x y => x - y) (results.map prob_same)
      (results.map prob_different) with
  | [E_ab, E_ab_, E_a_b, E_a_b_] =>
      some ⟨E_ab - E_ab_ + E_a_b + E_a_b_, results, E_ab, E_ab_, E_a_b, E_a_b_⟩
  | _ => none

/-- The violation check of the verbose report path: `chsh_value > 2`
(strict comparison, source line 81). -/
def chsh_violated (chsh_value : α) : Prop := 2 < chsh_value

/-- A device, modelled by its `run(circuit, shots)` method returning a task
handle of some type `τ`. -/
structure Device (α τ : Type) where
  run : List (Gate α) → ℕ → τ

/-- Embedding of `run_chsh_inequality(circuits, device, shots)`:
`[device.run(circ, shots=shots) for circ in circuits]`. -/
def run_chsh_inequality (circuits : List (List (Gate α))) (device : Device α τ)
    (shots : ℕ) : List τ :=
  circuits.map (fun circ => device.run circ shots)

/-- A symbolic device whose task handle records the submission it received:
running it logs exactly the `(circuit, shots)` pairs submitted. -/
def submission_log_device (α : Type) : Device α (List (Gate α) × ℕ) :=
  ⟨fun circ shots => (circ, shots)⟩

/-! ## Exact (zero-shot) simulation

The execution backend is the external Braket local simulator, not code of the
repository.  For the end-to-end claim about zero-shot execution we model it by
the standard state-vector semantics of the gates the circuits use: `h` is the
Hadamard unitary, `cnot` the controlled-not, `ry θ` the rotation
`[[cos(θ/2), -sin(θ/2)], [sin(θ/2), cos(θ/2)]]`, and the `probability`
result type reads the squared amplitudes of the final state.  All circuits
built by the module act on qubits `0` and `1`, qubit `0` being the more
significant bit of the outcome label; a gate addressed to any other qubit
leaves the two-qubit state unchanged (no circuit here produces one). -/

/-- A two-qubit state vector; all gates used by the module have real entries,
so real amplitudes suffice.  `a01` is the amplitude of outcome `01`, i.e.
qubit `0` measured `0` and qubit `1` measured `1`. -/
structure QState where
  a00 : ℝ
  a01 : ℝ
  a10 : ℝ
  a11 : ℝ

/-- The standard unitary action of one gate instruction on a two-qubit
state vector. -/
noncomputable def applyGate : Gate ℝ → QState → QState
  | Gate.h 0, ψ =>
      ⟨(ψ.a00 + ψ.a10) / Real.sqrt 2, (ψ.a01 + ψ.a11) / Real.sqrt 2,
       (ψ.a00 - ψ.a10) / Real.sqrt 2, (ψ.a01 - ψ.a11) / Real.sqrt 2⟩
  | Gate.h 1, ψ =>
      ⟨(ψ.a00 + ψ.a01) / Real.sqrt 2, (ψ.a00 - ψ.a01) / Real.sqrt 2,
       (ψ.a10 + ψ.a11) / Real.sqrt 2, (ψ.a10 - ψ.a11) / Real.sqrt 2⟩
  | Gate.cnot 0 1, ψ => ⟨ψ.a00, ψ.a01, ψ.a11, ψ.a10⟩
  | Gate.ry 0 θ, ψ =>
      ⟨Real.cos (θ / 2) * ψ.a00 - Real.sin (θ / 2) * ψ.a10,
       Real.cos (θ / 2) * ψ.a01 - Real.sin (θ / 2) * ψ.a11,
       Real.sin (θ / 2) * ψ.a00 + Real.cos (θ / 2) * ψ.a10,
       Real.sin (θ / 2) * ψ.a01 + Real.cos (θ / 2) * ψ.a11⟩
  | Gate.ry 1 θ, ψ =>
      ⟨Real.cos (θ / 2) * ψ.a00 - Real.sin (θ / 2) * ψ.a01,
       Real.sin (θ / 2) * ψ.a00 + Real.cos (θ / 2) * ψ.a01,
       Real.cos (θ / 2) * ψ.a10 - Real.sin (θ / 2) * ψ.a11,
       Real.sin (θ / 2) * ψ.a10 + Real.cos (θ / 2) * ψ.a11⟩
  | Gate.probability, ψ => ψ
  | _, ψ => ψ

/-- Run a circuit from the all-zeros initial state `|00⟩`. -/
noncomputable def runCircuit (circ : List (Gate ℝ)) : QState :=
  circ.foldl (fun ψ g => applyGate g ψ) ⟨1, 0, 0, 0⟩

/-- The probability distribution a zero-shot (exact) execution reports:
the squared amplitudes of the final state. -/
noncomputable def simulate (circ : List (Gate ℝ)) : Distribution ℝ :=
  ⟨(runCircuit circ).a00 ^ 2, (runCircuit circ).a01 ^ 2,
   (runCircuit circ).a10 ^ 2, (runCircuit circ).a11 ^ 2⟩

/-- The four circuits at the source defaults: `qubit0 = 0`, `qubit1 = 1`,
`a = 0`, `a_ = 2π/8`, `b = π/8`, `b_ = 3π/8`. -/
noncomputable def default_circuits : List (List (Gate ℝ)) :=
  create_chsh_inequality_circuits 0 1 0 (2 * Real.pi / 8) (Real.pi / 8)
    (3 * Real.pi / 8)

/-- The completed tasks a zero-shot run of the default circuits on a noiseless
simulator produces: each task carries the exact outcome distribution of its
circuit. -/
noncomputable def exact_default_tasks : List (QuantumTask ℝ) :=
  default_circuits.map (fun circ => ⟨simulate circ⟩)

/-! ### Evaluation of the default circuits -/

lemma default_angle_ne_zero : (2 * Real.pi / 8 : ℝ) ≠ 0 := by
  positivity

lemma sqrt_two_sq : Real.sqrt 2 ^ 2 = 2 := Real.sq_sqrt (by norm_num)

lemma sqrt_two_ne_zero : Real.sqrt 2 ≠ 0 := Real.sqrt_ne_zero'.mpr (by norm_num)

lemma default_circuits_eq :
    default_circuits =
      [[Gate.h 0, Gate.cnot 0 1, Gate.probability],
       [Gate.h 0, Gate.cnot 0 1, Gate.probability, Gate.h 1],
       [Gate.h 0, Gate.cnot 0 1, Gate.ry 0 (2 * Real.pi / 8), Gate.probability,
        Gate.h 0],
       [Gate.h 0, Gate.cnot 0 1, Gate.ry 0 (2 * Real.pi / 8), Gate.probability,
        Gate.h 0, Gate.h 1]] := by
  unfold default_circuits create_chsh_inequality_circuits
    bell_singlet_rotated_basis bell_singlet
  simp [default_angle_ne_zero, Real.pi_ne_zero]

lemma run_default_ab :
    runCircuit [Gate.h 0, Gate.cnot 0 1, Gate.probability]
      = ⟨1 / Real.sqrt 2, 0, 0, 1 / Real.sqrt 2⟩ := by
  simp only [runCircuit, List.foldl, applyGate]
  rw [QState.mk.injEq]
  norm_num

lemma run_default_ab_ :
    runCircuit [Gate.h 0, Gate.cnot 0 1, Gate.probability, Gate.h 1]
      = ⟨1 / 2, 1 / 2, 1 / 2, -(1 / 2)⟩ := by
  have hstep : runCircuit [Gate.h 0, Gate.cnot 0 1, Gate.probability, Gate.h 1]
      = applyGate (Gate.h 1)
          (runCircuit [Gate.h 0, Gate.cnot 0 1, Gate.probability]) := rfl
  rw [hstep, run_default_ab]
  simp only [applyGate]
  rw [QState.mk.injEq]
  refine ⟨?_, ?_, ?_, ?_⟩ <;>
    simp only [add_zero, zero_add, sub_zero, zero_sub, neg_div, div_div] <;>
    rw [Real.mul_self_sqrt (by norm_num : (0 : ℝ) ≤ 2)]

lemma run_default_a_b :
    runCircuit [Gate.h 0, Gate.cnot 0 1, Gate.ry 0 (2 * Real.pi / 8),
        Gate.probability, Gate.h 0]
      = ⟨(Real.cos (2 * Real.pi / 8 / 2) + Real.sin (2 * Real.pi / 8 / 2)) / 2,
         (Real.cos (2 * Real.pi / 8 / 2) - Real.sin (2 * Real.pi / 8 / 2)) / 2,
         (Real.cos (2 * Real.pi / 8 / 2) - Real.sin (2 * Real.pi / 8 / 2)) / 2,
         -((Real.cos (2 * Real.pi / 8 / 2) + Real.sin (2 * Real.pi / 8 / 2)) / 2)⟩ := by
  simp only [runCircuit, List.foldl, applyGate]
  rw [QState.mk.injEq]
  refine ⟨?_, ?_, ?_, ?_⟩ <;> field_simp <;> ring_nf

lemma run_default_a_b_ :
    runCircuit [Gate.h 0, Gate.cnot 0 1, Gate.ry 0 (2 * Real.pi / 8),
        Gate.probability, Gate.h 0, Gate.h 1]
      = ⟨Real.cos (2 * Real.pi / 8 / 2) / Real.sqrt 2,
         Real.sin (2 * Real.pi / 8 / 2) / Real.sqrt 2,
         -(Real.sin (2 * Real.pi / 8 / 2) / Real.sqrt 2),
         Real.cos (2 * Real.pi / 8 / 2) / Real.sqrt 2⟩ := by
  have hstep : runCircuit [Gate.h 0, Gate.cnot 0 1, Gate.ry 0 (2 * Real.pi / 8),
        Gate.probability, Gate.h 0, Gate.h 1]
      = applyGate (Gate.h 1)
          (runCircuit [Gate.h 0, Gate.cnot 0 1, Gate.ry 0 (2 * Real.pi / 8),
            Gate.probability, Gate.h 0]) := rfl
  rw [hstep, run_default_a_b]
  simp only [applyGate]
  rw [QState.mk.injEq]
  refine ⟨?_, ?_, ?_, ?_⟩ <;> ring

lemma sin_cos_default :
    2 * Real.sin (2 * Real.pi / 8 / 2) * Real.cos (2 * Real.pi / 8 / 2)
      = Real.sqrt 2 / 2 := by
  rw [← Real.sin_two_mul,
    show (2 * (2 * Real.pi / 8 / 2) : ℝ) = Real.pi / 4 by ring,
    Real.sin_pi_div_four]

lemma cos_sq_sub_sin_sq_default :
    Real.cos (2 * Real.pi / 8 / 2) ^ 2 - Real.sin (2 * Real.pi / 8 / 2) ^ 2
      = Real.sqrt 2 / 2 := by
  rw [← Real.cos_two_mul',
    show (2 * (2 * Real.pi / 8 / 2) : ℝ) = Real.pi / 4 by ring,
    Real.cos_pi_div_four]

lemma E_default_ab :
    expectationValue (simulate [Gate.h 0, Gate.cnot 0 1, Gate.probability]) = 1 := by
  unfold expectationValue prob_same prob_different simulate
  rw [run_default_ab]
  field_simp

lemma E_default_ab_ :
    expectationValue
      (simulate [Gate.h 0, Gate.cnot 0 1, Gate.probability, Gate.h 1]) = 0 := by
  unfold expectationValue prob_same prob_different simulate
  rw [run_default_ab_]
  ring

lemma E_default_a_b :
    expectationValue
      (simulate [Gate.h 0, Gate.cnot 0 1, Gate.ry 0 (2 * Real.pi / 8),
        Gate.probability, Gate.h 0]) = Real.sqrt 2 / 2 := by
  unfold expectationValue prob_same prob_different simulate
  rw [run_default_a_b]
  linear_combination sin_cos_default

lemma E_default_a_b_ :
    expectationValue
      (simulate [Gate.h 0, Gate.cnot 0 1, Gate.ry 0 (2 * Real.pi / 8),
        Gate.probability, Gate.h 0, Gate.h 1]) = Real.sqrt 2 / 2 := by
  unfold expectationValue prob_same prob_different simulate
  rw [run_default_a_b_]
  simp only [neg_sq, div_pow, sqrt_two_sq]
  linear_combination cos_sq_sub_sin_sq_default

/-! ## Claims -/

/-- C7: for every choice of arguments, `create_chsh_inequality_circuits`
returns exactly four circuit objects. -/
theorem chsh_c7_four_circuits (qubit0 qubit1 : ℕ) (a a_ b b_ : α) :
    (create_chsh_inequality_circuits qubit0 qubit1 a a_ b b_).length = 4 := rfl

/-- C3: on four completed tasks, the CHSH statistic returned by
`get_chsh_results` is the linear combination of the four per-distribution
expectation values with coefficients `(+1, -1, +1, +1)`. -/
theorem chsh_c3_statistic_sign_pattern (t0 t1 t2 t3 : QuantumTask α)
    (verbose : Bool) :
    (get_chsh_results [t0, t1, t2, t3] verbose).map ChshResult.chsh_value
      = some (expectationValue t0.resultDist - expectationValue t1.resultDist
          + expectationValue t2.resultDist + expectationValue t3.resultDist) := rfl

/-- C6: on four completed tasks, `get_chsh_results` returns, in this order,
the CHSH statistic, the list of the four raw distributions exactly as
extracted from the tasks, and the four individual expectation values. -/
theorem chsh_c6_return_shape (t0 t1 t2 t3 : QuantumTask α) (verbose : Bool) :
    get_chsh_results [t0, t1, t2, t3] verbose
      = some ⟨expectationValue t0.resultDist - expectationValue t1.resultDist
                + expectationValue t2.resultDist + expectationValue t3.resultDist,
              [t0.resultDist, t1.resultDist, t2.resultDist, t3.resultDist],
              expectationValue t0.resultDist, expectationValue t1.resultDist,
              expectationValue t2.resultDist, expectationValue t3.resultDist⟩ := rfl

/-- C8: `get_chsh_results` is deterministic: two runs on equal task lists and
equal verbosity flags return identical outputs. -/
theorem chsh_c8_deterministic (tasks tasks' : List (QuantumTask α))
    (verbose verbose' : Bool) (ht : tasks = tasks') (hv : verbose = verbose') :
    get_chsh_results tasks verbose = get_chsh_results tasks' verbose' := by
  rw [ht, hv]

/-- Witness for C8 at a concrete rational input. -/
theorem chsh_c8_deterministic_witness :
    get_chsh_results [(⟨⟨1, 0, 0, 0⟩⟩ : QuantumTask ℚ)] true
      = get_chsh_results [(⟨⟨1, 0, 0, 0⟩⟩ : QuantumTask ℚ)] true :=
  chsh_c8_deterministic (α := ℚ) _ _ true true rfl rfl

/-- C2: for a distribution with non-negative entries summing to `1`, the
expectation value `get_chsh_results` computes for it (in whichever of the four
slots it sits) is `(P00 + P11) - (P01 + P10)`, and that value lies in
`[-1, 1]`. -/
theorem chsh_c2_expectation_formula_and_range
    (d : Distribution α) (t1 t2 t3 : QuantumTask α) (verbose : Bool)
    (h00 : 0 ≤ d.p00) (h01 : 0 ≤ d.p01) (h10 : 0 ≤ d.p10) (h11 : 0 ≤ d.p11)
    (hsum : d.p00 + d.p01 + d.p10 + d.p11 = 1) :
    (get_chsh_results [⟨d⟩, t1, t2, t3] verbose).map ChshResult.E_ab
        = some ((d.p00 + d.p11) - (d.p01 + d.p10))
    ∧ (get_chsh_results [t1, ⟨d⟩, t2, t3] verbose).map ChshResult.E_ab_
        = some ((d.p00 + d.p11) - (d.p01 + d.p10))
    ∧ (get_chsh_results [t1, t2, ⟨d⟩, t3] verbose).map ChshResult.E_a_b
        = some ((d.p00 + d.p11) - (d.p01 + d.p10))
    ∧ (get_chsh_results [t1, t2, t3, ⟨d⟩] verbose).map ChshResult.E_a_b_
        = some ((d.p00 + d.p11) - (d.p01 + d.p10))
    ∧ -1 ≤ (d.p00 + d.p11) - (d.p01 + d.p10)
    ∧ (d.p00 + d.p11) - (d.p01 + d.p10) ≤ 1 :=
  ⟨rfl, rfl, rfl, rfl, by linarith, by linarith⟩

/-- Witness for C2 at the concrete distribution `(1, 0, 0, 0)` over `ℚ`. -/
theorem chsh_c2_expectation_formula_and_range_witness :
    (get_chsh_results
        [⟨⟨1, 0, 0, 0⟩⟩, ⟨⟨0, 0, 0, 1⟩⟩, ⟨⟨0, 0, 0, 1⟩⟩, ⟨⟨0, 0, 0, 1⟩⟩]
        true).map ChshResult.E_ab
      = some (((1 : ℚ) + 0) - (0 + 0))
    ∧ -1 ≤ (((1 : ℚ) + 0) - (0 + 0))
    ∧ (((1 : ℚ) + 0) - (0 + 0)) ≤ 1 := by
  have h := chsh_c2_expectation_formula_and_range (α := ℚ) ⟨1, 0, 0, 0⟩
    ⟨⟨0, 0, 0, 1⟩⟩ ⟨⟨0, 0, 0, 1⟩⟩ ⟨⟨0, 0, 0, 1⟩⟩ true
    (by simp) (by simp) (by simp) (by simp) (by simp)
  exact ⟨h.1, h.2.2.2.2.1, h.2.2.2.2.2⟩

/-- C4: if every input distribution has `prob_same = 1` and
`prob_different = 0` (all mass on correlated outcomes, e.g. all-`00`), then
every expectation value is `1`, the CHSH statistic is exactly `2`, and the
verdict is not violated because the check `chsh_value > 2` is strict. -/
theorem chsh_c4_classical_boundary (t0 t1 t2 t3 : QuantumTask α) (verbose : Bool)
    (h0s : prob_same t0.resultDist = 1) (h0d : prob_different t0.resultDist = 0)
    (h1s : prob_same t1.resultDist = 1) (h1d : prob_different t1.resultDist = 0)
    (h2s : prob_same t2.resultDist = 1) (h2d : prob_different t2.resultDist = 0)
    (h3s : prob_same t3.resultDist = 1) (h3d : prob_different t3.resultDist = 0) :
    ∀ r : ChshResult α, get_chsh_results [t0, t1, t2, t3] verbose = some r →
      r.E_ab = 1 ∧ r.E_ab_ = 1 ∧ r.E_a_b = 1 ∧ r.E_a_b_ = 1
        ∧ r.chsh_value = 2 ∧ ¬ chsh_violated r.chsh_value := by
  intro r hr
  obtain rfl : (⟨expectationValue t0.resultDist - expectationValue t1.resultDist
        + expectationValue t2.resultDist + expectationValue t3.resultDist,
      [t0.resultDist, t1.resultDist, t2.resultDist, t3.resultDist],
      expectationValue t0.resultDist, expectationValue t1.resultDist,
      expectationValue t2.resultDist, expectationValue t3.resultDist⟩
      : ChshResult α) = r := Option.some.inj hr
  simp only [chsh_violated, expectationValue, h0s, h0d, h1s, h1d, h2s, h2d,
    h3s, h3d]
  norm_num

/-- Witness for C4 at four all-`00` distributions over `ℚ`. -/
theorem chsh_c4_classical_boundary_witness :
    expectationValue (⟨1, 0, 0, 0⟩ : Distribution ℚ) = 1
    ∧ expectationValue (⟨1, 0, 0, 0⟩ : Distribution ℚ) = 1
    ∧ expectationValue (⟨1, 0, 0, 0⟩ : Distribution ℚ) = 1
    ∧ expectationValue (⟨1, 0, 0, 0⟩ : Distribution ℚ) = 1
    ∧ (expectationValue (⟨1, 0, 0, 0⟩ : Distribution ℚ)
        - expectationValue (⟨1, 0, 0, 0⟩ : Distribution ℚ)
        + expectationValue (⟨1, 0, 0, 0⟩ : Distribution ℚ)
        + expectationValue (⟨1, 0, 0, 0⟩ : Distribution ℚ)) = 2
    ∧ ¬ chsh_violated (expectationValue (⟨1, 0, 0, 0⟩ : Distribution ℚ)
        - expectationValue (⟨1, 0, 0, 0⟩ : Distribution ℚ)
        + expectationValue (⟨1, 0, 0, 0⟩ : Distribution ℚ)
        + expectationValue (⟨1, 0, 0, 0⟩ : Distribution ℚ)) :=
  chsh_c4_classical_boundary (α := ℚ)
    ⟨⟨1, 0, 0, 0⟩⟩ ⟨⟨1, 0, 0, 0⟩⟩ ⟨⟨1, 0, 0, 0⟩⟩ ⟨⟨1, 0, 0, 0⟩⟩ true
    (by simp [prob_same]) (by simp [prob_different])
    (by simp [prob_same]) (by simp [prob_different])
    (by simp [prob_same]) (by simp [prob_different])
    (by simp [prob_same]) (by simp [prob_different])
    ⟨expectationValue ⟨1, 0, 0, 0⟩ - expectationValue ⟨1, 0, 0, 0⟩
        + expectationValue ⟨1, 0, 0, 0⟩ + expectationValue ⟨1, 0, 0, 0⟩,
      [⟨1, 0, 0, 0⟩, ⟨1, 0, 0, 0⟩, ⟨1, 0, 0, 0⟩, ⟨1, 0, 0, 0⟩],
      expectationValue ⟨1, 0, 0, 0⟩, expectationValue ⟨1, 0, 0, 0⟩,
      expectationValue ⟨1, 0, 0, 0⟩, expectationValue ⟨1, 0, 0, 0⟩⟩ rfl

omit [LinearOrderedField α] in
/-- C9: `run_chsh_inequality` returns one task handle per circuit, in input
order, each produced by running that circuit on the device with the given
shot count; against a logging device the submission log is exactly one
`(circuit, shots)` entry per input circuit. -/
theorem chsh_c9_submission (circuits : List (List (Gate α))) (device : Device α τ)
    (shots : ℕ) :
    (run_chsh_inequality circuits device shots).length = circuits.length
    ∧ (∀ i : ℕ, (run_chsh_inequality circuits device shots)[i]?
        = (circuits[i]?).map (fun circ => device.run circ shots))
    ∧ run_chsh_inequality circuits (submission_log_device α) shots
        = circuits.map (fun circ => (circ, shots)) :=
  ⟨List.length_map _ _, fun _ => List.getElem?_map _ _ _, rfl⟩

/-- C10: the `rotation1` argument of `bell_singlet_rotated_basis` has no
effect on the returned circuit, and the only rotation gate the circuit can
contain is `ry rotation0` on `qubit0`, present exactly when
`rotation0 ≠ 0`. -/
theorem chsh_c10_rotation1_unused (qubit0 qubit1 : ℕ) (r0 r1 r1' : α) :
    bell_singlet_rotated_basis qubit0 qubit1 r0 r1
        = bell_singlet_rotated_basis qubit0 qubit1 r0 r1'
    ∧ ∀ q : ℕ, ∀ θ : α,
        Gate.ry q θ ∈ bell_singlet_rotated_basis qubit0 qubit1 r0 r1 →
          q = qubit0 ∧ θ = r0 ∧ r0 ≠ 0 := by
  constructor
  · rfl
  · intro q θ hmem
    unfold bell_singlet_rotated_basis bell_singlet at hmem
    by_cases h : r0 = 0
    · subst h
      simp at hmem
    · simp [h] at hmem
      exact ⟨hmem.1, hmem.2, h⟩

/-- Witness for C10 at concrete rational angles. -/
theorem chsh_c10_rotation1_unused_witness :
    bell_singlet_rotated_basis 0 1 (2 : ℚ) 5 = bell_singlet_rotated_basis 0 1 2 7
    ∧ ((0 : ℕ) = 0 ∧ (2 : ℚ) = 2 ∧ (2 : ℚ) ≠ 0) :=
  ⟨(chsh_c10_rotation1_unused 0 1 (2 : ℚ) 5 7).1,
   (chsh_c10_rotation1_unused 0 1 (2 : ℚ) 5 7).2 0 2
     (by simp [bell_singlet_rotated_basis, bell_singlet])⟩

/-- C5 (code evaluation at the failing input): exact zero-shot execution of
the four circuits built at the source default angles `(0, 2π/8, π/8, 3π/8)`
on a noiseless simulator yields a four-element result list, but the first
expectation value is exactly `1` — more than `0.01` away from the quantum
prediction `cos(π/8)` for those angles — and the CHSH statistic is exactly
`1 + √2`, which falls short of `2√2 ≈ 2.828` by more than `0.01`. -/
theorem chsh_c5_exact_default_eval :
    (get_chsh_results exact_default_tasks true).map ChshResult.chsh_value
      = some (1 + Real.sqrt 2)
    ∧ (get_chsh_results exact_default_tasks true).map
        (fun r => r.results.length) = some 4
    ∧ (get_chsh_results exact_default_tasks true).map ChshResult.E_ab = some 1
    ∧ 1 / 100 < 1 - Real.cos (Real.pi / 8)
    ∧ 1 / 100 < 2 * Real.sqrt 2 - (1 + Real.sqrt 2) := by
  have htasks : exact_default_tasks
      = [⟨simulate [Gate.h 0, Gate.cnot 0 1, Gate.probability]⟩,
         ⟨simulate [Gate.h 0, Gate.cnot 0 1, Gate.probability, Gate.h 1]⟩,
         ⟨simulate [Gate.h 0, Gate.cnot 0 1, Gate.ry 0 (2 * Real.pi / 8),
            Gate.probability, Gate.h 0]⟩,
         ⟨simulate [Gate.h 0, Gate.cnot 0 1, Gate.ry 0 (2 * Real.pi / 8),
            Gate.probability, Gate.h 0, Gate.h 1]⟩] := by
    unfold exact_default_tasks
    rw [default_circuits_eq]
    rfl
  refine ⟨?_, ?_, ?_, ?_, ?_⟩
  · rw [htasks]
    show some (expectationValue (simulate [Gate.h 0, Gate.cnot 0 1, Gate.probability])
        - expectationValue
            (simulate [Gate.h 0, Gate.cnot 0 1, Gate.probability, Gate.h 1])
        + expectationValue
            (simulate [Gate.h 0, Gate.cnot 0 1, Gate.ry 0 (2 * Real.pi / 8),
              Gate.probability, Gate.h 0])
        + expectationValue
            (simulate [Gate.h 0, Gate.cnot 0 1, Gate.ry 0 (2 * Real.pi / 8),
              Gate.probability, Gate.h 0, Gate.h 1]))
      = some (1 + Real.sqrt 2)
    rw [E_default_ab, E_default_ab_, E_default_a_b, E_default_a_b_,
      show (1 : ℝ) - 0 + Real.sqrt 2 / 2 + Real.sqrt 2 / 2 = 1 + Real.sqrt 2
        by ring]
  · rw [htasks]
    rfl
  · rw [htasks]
    show some (expectationValue
        (simulate [Gate.h 0, Gate.cnot 0 1, Gate.probability])) = some 1
    rw [E_default_ab]
  · have hcnn : 0 ≤ Real.cos (Real.pi / 8) := by
      apply Real.cos_nonneg_of_mem_Icc
      constructor <;> [linarith [Real.pi_pos]; linarith [Real.pi_pos]]
    have hsq : Real.cos (Real.pi / 8) ^ 2 = 1 / 2 + Real.sqrt 2 / 4 := by
      rw [Real.cos_sq, show (2 * (Real.pi / 8) : ℝ) = Real.pi / 4 by ring,
        Real.cos_pi_div_four]
      ring
    have hs15 : Real.sqrt 2 < 3 / 2 := (Real.sqrt_lt' (by norm_num)).mpr (by norm_num)
    nlinarith [hcnn, hsq, hs15]
  · have h : (101 / 100 : ℝ) < Real.sqrt 2 := Real.lt_sqrt_of_sq_lt (by norm_num)
    linarith

/-- C1 (code evaluation at the failing input): the `(a, b)` circuit built with
`a = 0` and `b = 1 ≠ 0` contains no rotation gate at all — in particular none
on `qubit1` — because the source never applies a rotation driven by the
second angle of a circuit. -/
theorem chsh_c1_missing_rotation_eval :
    (create_chsh_inequality_circuits 0 1 (0 : ℚ) 2 1 3)[0]?
      = some [Gate.h 0, Gate.cnot 0 1, Gate.probability]
    ∧ (1 : ℚ) ≠ 0 := by
  constructor
  · simp [create_chsh_inequality_circuits, bell_singlet_rotated_basis, bell_singlet]
  · norm_num

end CHSH
